import Mathlib

/-!
Verification of the AgentGov governance sidecar core against its
natural-language specification.  The Go sources are shallowly embedded:
pure decision logic becomes Lean functions, stateful operations become
explicit state passing, external effects (filesystem loads, the network,
JSON validity of the standard library) become explicit parameters.
-/

namespace AgentGov

/-! ## Policy data model (internal/policy, types file)

Request is `{tool_name, args, metadata}`; only the decision-relevant part
of the model is needed here.  Response mirrors the Go struct
`Response{Allow bool; Reason string; HumanRequired bool}`. -/

structure Response where
  Allow : Bool
  Reason : String
  HumanRequired : Bool
deriving DecidableEq, Repr

/-- Outcome of running one evaluator on one request: the Go call
`eval.Evaluate(ctx, req)` returns `(Response, error)`; a nonzero error is
embedded as `.error` with its message. -/
abbrev EvalOutcome := Except String Response

namespace Engine

/-- Embeds `Engine.denyResponse`: `Response{Allow: false, Reason: reason}`;
the omitted Go field `HumanRequired` takes its zero value `false`. -/
def denyResponse (reason : String) : Response :=
  { Allow := false, Reason := reason, HumanRequired := false }

/-- Embeds the loop body of `Engine.Evaluate` (WASM engine): for each
evaluator in iteration order, an evaluation error returns
`denyResponse("policy error: " + name)`; a response with `!resp.Allow`
returns that response; a response with `resp.HumanRequired` returns that
response; otherwise the loop continues.  After the loop the engine returns
`Response{Allow: true, Reason: "all policies passed"}`. -/
def evalLoop : List (String × EvalOutcome) → Response
  | [] => { Allow := true, Reason := "all policies passed", HumanRequired := false }
  | (name, .error _) :: _ => denyResponse ("policy error: " ++ name)
  | (_, .ok resp) :: rest =>
    if resp.Allow = false then resp
    else if resp.HumanRequired then resp
    else evalLoop rest

/-- Embeds `Engine.Evaluate`: the evaluator map is taken in one of its
(Go-map, hence arbitrary) iteration orders, each entry paired with the
outcome of that evaluator on the request under evaluation.  An empty set
returns `denyResponse("no policies loaded")`. -/
def Evaluate (evals : List (String × EvalOutcome)) : Response :=
  if evals.isEmpty then denyResponse "no policies loaded"
  else evalLoop evals

/-- Embeds `Engine.reloadLocked` (WASM engine): it first closes every
existing evaluator and replaces the map by a fresh empty one, and only
then runs `loader.LoadFromDir`; on loader error it returns that error with
the map left empty, otherwise it installs the loaded policies.  The loader
outcome (a filesystem effect) is passed explicitly. -/
def reloadLocked (evaluators : List (String × Nat))
    (loadResult : Except String (List (String × Nat))) :
    Except String Unit × List (String × Nat) :=
  let _ := evaluators   -- every existing evaluator is closed and dropped
  let cleared : List (String × Nat) := []
  match loadResult with
  | .error e => (.error e, cleared)
  | .ok policies => (.ok (), policies)

end Engine

/-! ## Proxy orchestrator (internal/proxy/handler.go) -/

/-- Composed verdict of one request, as classified by
`Handler.HandleToolCall` after `evaluatePolicy` returns: the branch
`!decision.Allow` produces the deny response, then `decision.HumanRequired`
routes to `handleHumanApproval` (suspension), else the request is
forwarded (allow). -/
inductive Verdict where
  | allow (reason : String)
  | deny (reason : String)
  | suspend (reason : String)
deriving DecidableEq, Repr

namespace Handler

/-- Embeds the post-evaluation branching of `Handler.HandleToolCall`
(lines 53-61): `if !decision.Allow` deny, `else if decision.HumanRequired`
suspend, else allow. -/
def verdictOf (decision : Response) : Verdict :=
  if decision.Allow = false then .deny decision.Reason
  else if decision.HumanRequired then .suspend decision.Reason
  else .allow decision.Reason

end Handler

/-- Modelled from the spec: the composition rule exactly as claim C1
states it, with global precedence deny before suspend before failure -
if any evaluator returns `allow=false, human_required=false` the verdict
is deny with that reason; else if any returns `human_required=true` the
verdict is suspend with that reason; else if any evaluator fails the
verdict is deny with reason `policy error: name`; else allow
`all policies passed`; an empty set denies with `no policies loaded`. -/
def claimComposedVerdict (evals : List (String × EvalOutcome)) : Verdict :=
  if evals.isEmpty then .deny "no policies loaded"
  else
    match evals.find? (fun p => match p.2 with
        | .ok r => r.Allow = false && r.HumanRequired = false
        | .error _ => false) with
    | some (_, .ok r) => .deny r.Reason
    | _ =>
      match evals.find? (fun p => match p.2 with
          | .ok r => r.HumanRequired
          | .error _ => false) with
      | some (_, .ok r) => .suspend r.Reason
      | _ =>
        match evals.find? (fun p => match p.2 with
            | .ok _ => false
            | .error _ => true) with
        | some (name, _) => .deny ("policy error: " ++ name)
        | _ => .allow "all policies passed"

/-- Predicate on one evaluator entry: it terminates the scan of
`Engine.evalLoop` (a failed evaluation, or a response that is not
`allow=true, human_required=false`). -/
def blocks (p : String × EvalOutcome) : Bool :=
  match p.2 with
  | .error _ => true
  | .ok r => r.Allow = false || r.HumanRequired

/-- Short-circuit composition as the code actually performs it: the first
entry in iteration order that fails or does not pass decides the verdict. -/
def shortCircuitVerdict (evals : List (String × EvalOutcome)) : Verdict :=
  if evals.isEmpty then .deny "no policies loaded"
  else
    match evals.find? blocks with
    | none => .allow "all policies passed"
    | some (name, .error _) => .deny ("policy error: " ++ name)
    | some (_, .ok r) => if r.Allow = false then .deny r.Reason else .suspend r.Reason

/-- Helper: the loop and the first blocking entry agree. -/
theorem evalLoop_eq_find (l : List (String × EvalOutcome)) :
    Handler.verdictOf (Engine.evalLoop l) =
      match l.find? blocks with
      | none => .allow "all policies passed"
      | some (name, .error _) => .deny ("policy error: " ++ name)
      | some (_, .ok r) => if r.Allow = false then .deny r.Reason else .suspend r.Reason := by
  induction l with
  | nil => simp [Engine.evalLoop, Handler.verdictOf]
  | cons p rest ih =>
    obtain ⟨name, outcome⟩ := p
    match outcome with
    | .error e =>
      simp [Engine.evalLoop, List.find?_cons, blocks, Handler.verdictOf, Engine.denyResponse]
    | .ok r =>
      by_cases hA : r.Allow = false
      · simp [Engine.evalLoop, List.find?_cons, blocks, hA, Handler.verdictOf]
      · by_cases hH : r.HumanRequired = true
        · simp [Engine.evalLoop, List.find?_cons, blocks, hA, hH, Handler.verdictOf]
        · have hA' : r.Allow = true := by
            cases h : r.Allow with
            | false => exact absurd h hA
            | true => rfl
          have hH' : r.HumanRequired = false := by
            cases h : r.HumanRequired with
            | false => rfl
            | true => exact absurd h hH
          simp [Engine.evalLoop, List.find?_cons, blocks, hA', hH', ih]

/-- Claim C1 counterexample: with iteration order placing an evaluator
that asks for a human (`allow=true, human_required=true`) before one that
denies outright (`allow=false, human_required=false`), the engine
short-circuits on the first and the composed verdict is suspend, while
the rule stated by the claim gives deny with the second reason.  Global
deny-precedence fails on the code. -/
theorem engine_evaluate_global_precedence_ce :
    Handler.verdictOf (Engine.Evaluate
        [("a", .ok { Allow := true, Reason := "need human", HumanRequired := true }),
         ("b", .ok { Allow := false, Reason := "bad", HumanRequired := false })]) ≠
      claimComposedVerdict
        [("a", .ok { Allow := true, Reason := "need human", HumanRequired := true }),
         ("b", .ok { Allow := false, Reason := "bad", HumanRequired := false })] := by
  decide

/-- Claim C1 (amended): the composed verdict is decided by one
short-circuit scan in iteration order - the first evaluator that fails
yields deny with reason `policy error: name`, the first whose response
has `allow=false` yields deny with that reason (even when
`human_required=true`), the first with `allow=true, human_required=true`
yields suspend with that reason; when all evaluators pass the verdict is
allow with `all policies passed`, and the empty set denies with
`no policies loaded`.  Deny does not take precedence over suspension
across distinct evaluators, and a failure short-circuits at its own
position rather than ranking below deny and suspend. -/
theorem engine_evaluate_short_circuit (evals : List (String × EvalOutcome)) :
    Handler.verdictOf (Engine.Evaluate evals) = shortCircuitVerdict evals := by
  by_cases h : evals.isEmpty
  · simp [Engine.Evaluate, shortCircuitVerdict, h, Handler.verdictOf, Engine.denyResponse]
  · simp only [Engine.Evaluate, shortCircuitVerdict, h, if_neg]
    exact evalLoop_eq_find evals

/-- Claim C2: evaluation of the code at the failing input.  Starting from
an engine holding one evaluator, a reload whose `LoadFromDir` fails (for
example the policy directory was removed) does not keep the previous set:
`reloadLocked` has already closed every evaluator and installed a fresh
empty map before the load is attempted, so the failed reload leaves the
engine empty and a subsequent evaluation denies with
`no policies loaded` instead of using the previous evaluator. -/
theorem failed_reload_clears_evaluators :
    Engine.reloadLocked [("passthrough", 0)] (.error "read directory: no such file or directory") =
        (.error "read directory: no such file or directory", []) ∧
      ([] : List (String × Nat)) ≠ [("passthrough", 0)] ∧
      Engine.Evaluate (([] : List (String × Nat)).map (fun p => (p.1, (.ok { Allow := true, Reason := "ok", HumanRequired := false } : EvalOutcome)))) =
        Engine.denyResponse "no policies loaded" := by
  refine ⟨rfl, by decide, rfl⟩

/-- Claim C3 counterexample: a policy decision with `allow=false,
human_required=true` is classified by the handler as an outright denial,
not as a suspension: the `!decision.Allow` branch fires before the
`decision.HumanRequired` branch, so the request is never submitted to the
approval queue. -/
theorem deny_with_human_required_ce :
    Handler.verdictOf { Allow := false, Reason := "sensitive", HumanRequired := true } =
        Verdict.deny "sensitive" ∧
      Handler.verdictOf { Allow := false, Reason := "sensitive", HumanRequired := true } ≠
        Verdict.suspend "sensitive" := by
  decide

/-- Claim C3 (amended): a request is submitted to the approval queue
(suspended) exactly when its decision has `allow=true` and
`human_required=true`; every decision with `allow=false` is denied
outright with its reason, regardless of `human_required` - the human
override described by the spec for `allow=false, human_required=true`
does not exist in the handler. -/
theorem suspension_requires_allow (decision : Response) :
    (Handler.verdictOf decision = Verdict.suspend decision.Reason ↔
        decision.Allow = true ∧ decision.HumanRequired = true) ∧
      (decision.Allow = false → Handler.verdictOf decision = Verdict.deny decision.Reason) := by
  obtain ⟨a, r, h⟩ := decision
  cases a <;> cases h <;> simp [Handler.verdictOf]

/-- Witness for the amended claim C3 at a concrete decision. -/
theorem suspension_requires_allow_witness :
    Handler.verdictOf { Allow := false, Reason := "w", HumanRequired := false } =
      Verdict.deny "w" :=
  (suspension_requires_allow { Allow := false, Reason := "w", HumanRequired := false }).2 rfl

/-! ## Approval queue data model (internal/approval) -/

namespace Approval

/-- Embeds the human `Decision` struct:
`{Approved bool; Reason string; DecidedBy string}`. -/
structure Decision where
  Approved : Bool
  Reason : String
  DecidedBy : String
deriving DecidableEq, Repr

end Approval

/-! ## Audit writes performed by the proxy handler -/

namespace Proxy

/-- One call to `audit.Store.Log` as issued by `Handler.logAudit`: the
outcome string and the reason (the tool input is the request envelope of
the surrounding call and is not repeated here). -/
structure AuditWrite where
  decision : String
  reason : String
deriving DecidableEq, Repr

/-- Embeds `Handler.logAudit`: the audit outcome is `"allow"` when the
policy decision has `Allow=true` and `"deny"` otherwise, with the
decision reason. -/
def logAuditWrite (decision : Response) : AuditWrite :=
  { decision := if decision.Allow then "allow" else "deny", reason := decision.Reason }

/-- Terminal responses of `Handler.HandleToolCall` past the parse step. -/
inductive FinalResp where
  | denied (reason : String)
  | forwarded
deriving DecidableEq, Repr

/-- Embeds `Handler.handleHumanApproval`: the queue delivers the human
decision; a non-approved decision produces the denial response and an
approved one forwards.  The function performs no call to `audit.Log`,
hence its audit-write trace is empty. -/
def handleHumanApproval (human : Approval.Decision) : List AuditWrite × FinalResp :=
  if human.Approved = false then ([], .denied human.Reason)
  else ([], .forwarded)

/-- Embeds `Handler.HandleToolCall` after a successful parse and policy
evaluation, as the pair (audit writes in order, terminal response).
`logAudit` runs unconditionally before any branching; the deny branch,
the suspension branch (via `handleHumanApproval` with the resolved human
decision) and the forward branch follow. -/
def HandleToolCall (decision : Response) (human : Approval.Decision) :
    List AuditWrite × FinalResp :=
  let pre := [logAuditWrite decision]
  if decision.Allow = false then (pre, .denied decision.Reason)
  else if decision.HumanRequired then
    let resolved := handleHumanApproval human
    (pre ++ resolved.1, resolved.2)
  else (pre, .forwarded)

end Proxy

/-- Claim C4 counterexample: for a suspended request (decision
`allow=true, human_required=true`, reason `sensitive op`) that a human
then denies, the handler writes an audit entry with outcome `allow`
before the suspension point, and writes no entry at all for the resolved
human decision - the full audit trace of the request is exactly the one
pre-suspension `allow` entry. -/
theorem suspend_audit_ce :
    (Proxy.HandleToolCall
          { Allow := true, Reason := "sensitive op", HumanRequired := true }
          { Approved := false, Reason := "too risky", DecidedBy := "admin" }).1 =
        [{ decision := "allow", reason := "sensitive op" }] ∧
      ({ decision := "deny", reason := "too risky" } : Proxy.AuditWrite) ∉
        (Proxy.HandleToolCall
          { Allow := true, Reason := "sensitive op", HumanRequired := true }
          { Approved := false, Reason := "too risky", DecidedBy := "admin" }).1 := by
  decide

/-- Claim C4 (amended): for every request whose verdict is suspend, one
audit entry is written at the decision point, before the request is
submitted to the approval queue, and it records outcome `allow` (a
suspension requires `allow=true`) with the policy reason; the resolved
human decision is never audited, so the complete audit trace of such a
request is that single pre-suspension entry, while the terminal response
does follow the human decision. -/
theorem suspend_audit_trace (decision : Response) (human : Approval.Decision)
    (hA : decision.Allow = true) (hH : decision.HumanRequired = true) :
    (Proxy.HandleToolCall decision human).1 =
        [{ decision := "allow", reason := decision.Reason }] ∧
      (Proxy.HandleToolCall decision human).2 =
        (if human.Approved then .forwarded else .denied human.Reason) := by
  cases h : human.Approved <;>
    simp [Proxy.HandleToolCall, Proxy.handleHumanApproval, Proxy.logAuditWrite, hA, hH, h]

/-- Witness for the amended claim C4 at a concrete suspended request. -/
theorem suspend_audit_trace_witness :
    (Proxy.HandleToolCall
          { Allow := true, Reason := "sensitive op", HumanRequired := true }
          { Approved := true, Reason := "ok", DecidedBy := "admin" }).1 =
        [{ decision := "allow", reason := "sensitive op" }] ∧
      (Proxy.HandleToolCall
          { Allow := true, Reason := "sensitive op", HumanRequired := true }
          { Approved := true, Reason := "ok", DecidedBy := "admin" }).2 =
        (if (true : Bool) then .forwarded else .denied "ok") :=
  suspend_audit_trace
    { Allow := true, Reason := "sensitive op", HumanRequired := true }
    { Approved := true, Reason := "ok", DecidedBy := "admin" } rfl rfl

/-! ## WASM evaluator resource bounds (internal/policy/evaluator.go,
loader) -/

namespace Wasm

/-- Relevant wasmtime configuration switches.  `wasmtime.NewConfig()`
creates a configuration with fuel consumption disabled. -/
structure Config where
  wasmMultiMemory : Bool
  wasmThreads : Bool
  consumeFuel : Bool
deriving DecidableEq, Repr

/-- Embeds `wasmtime.NewConfig()` defaults: fuel consumption is off
unless `SetConsumeFuel(true)` is called. -/
def newConfig : Config :=
  { wasmMultiMemory := false, wasmThreads := false, consumeFuel := false }

/-- Embeds `NewWASMLoader`: the loader calls `SetWasmMultiMemory(true)`
and `SetWasmThreads(false)` on a fresh configuration and never calls
`SetConsumeFuel`. -/
def NewWASMLoaderConfig : Config :=
  { newConfig with wasmMultiMemory := true, wasmThreads := false }

/-- The fuel-relevant state of a `wasmtime.Store`. -/
structure Store where
  consumeFuel : Bool
  fuel : Nat
deriving DecidableEq, Repr

/-- Embeds `wasmtime.NewStore(engine)`: the store inherits the fuel
switch from the engine configuration and starts with no fuel. -/
def newStore (cfg : Config) : Store :=
  { consumeFuel := cfg.consumeFuel, fuel := 0 }

/-- Embeds `Store.AddFuel`: adding fuel fails when fuel consumption is
not configured on the store. -/
def addFuel (s : Store) (n : Nat) : Except String Store :=
  if s.consumeFuel then .ok { s with fuel := s.fuel + n }
  else .error "fuel is not configured in this store"

/-- Embeds the store construction of `NewWASMEvaluator`: a fresh store of
the loader engine, then `store.AddFuel(10000000)` whose returned error is
discarded (the Go call ignores the result). -/
def evaluatorStore : Store :=
  let s := newStore NewWASMLoaderConfig
  match addFuel s 10000000 with
  | .ok s' => s'
  | .error _ => s

/-- Observable state of a policy module execution after a number of
machine steps: still running, trapped by fuel exhaustion (the
`PolicyFailure` of the claim), or completed with an output. -/
inductive RunState (σ : Type) where
  | running (s : σ)
  | trapped
  | done (out : String)
deriving DecidableEq, Repr

/-- Step-indexed execution of a module body under the fuel discipline of
a store: when fuel consumption is enabled each step burns one unit and an
exhausted budget traps; otherwise steps are unmetered.  The index `n` is
the number of machine steps observed, not a budget imposed by the host. -/
def runFrom {σ : Type} (consume : Bool) (stepF : σ → σ ⊕ String) :
    σ → Nat → Nat → RunState σ
  | s, _, 0 => .running s
  | s, fuel, n + 1 =>
    if consume && decide (fuel = 0) then .trapped
    else
      match stepF s with
      | .inr out => .done out
      | .inl s' => runFrom consume stepF s' (fuel - 1) n

/-- Execution of a module inside the store built by `NewWASMEvaluator`. -/
def runModule {σ : Type} (st : Store) (stepF : σ → σ ⊕ String) (s : σ) (n : Nat) :
    RunState σ :=
  runFrom st.consumeFuel stepF s st.fuel n

/-- A policy module whose `evaluate` entry point loops forever. -/
def loopStep : Unit → Unit ⊕ String := fun u => .inl u

end Wasm

/-- Claim C5: evaluation of the code at the failing input.  The loader
configuration never enables fuel consumption, so the evaluator store runs
unmetered (the `AddFuel(10000000)` call fails and its error is
discarded), and a policy module that loops indefinitely is still running
after every number of steps: it never traps and never completes, so no
`PolicyFailure` is produced within any bound - there is no per-invocation
CPU budget. -/
theorem infinite_loop_policy_never_bounded :
    Wasm.NewWASMLoaderConfig.consumeFuel = false ∧
      Wasm.evaluatorStore = { consumeFuel := false, fuel := 0 } ∧
      ∀ n : Nat, Wasm.runModule Wasm.evaluatorStore Wasm.loopStep () n = .running () := by
  refine ⟨rfl, rfl, fun n => ?_⟩
  induction n with
  | zero => rfl
  | succ n ih =>
    simpa [Wasm.runModule, Wasm.runFrom, Wasm.evaluatorStore, Wasm.addFuel, Wasm.newStore,
      Wasm.NewWASMLoaderConfig, Wasm.newConfig, Wasm.loopStep] using ih

/-! ## In-memory approval queue (internal/approval, InMemoryQueue) -/

namespace Approval

/-- Status of a pending entry, embedding the Go `Status` string consts. -/
inductive Status where
  | pending
  | approved
  | denied
  | timeout
deriving DecidableEq, Repr

/-- Embeds the pending `Request` struct fields relevant to the queue. -/
structure Request where
  ID : String
  ToolName : String
  Args : String
  Reason : String
  Status : Status
deriving DecidableEq, Repr

/-- State of the `InMemoryQueue`: the mutex-protected `pending` map,
embedded as an association list keyed by the entry id. -/
structure QueueState where
  pending : List (String × Request)
deriving DecidableEq, Repr

/-- Lookup of `q.pending[id]` on the embedded map. -/
def lookupPending (q : QueueState) (id : String) : Option Request :=
  (q.pending.find? (fun p => p.1 == id)).map (fun p => p.2)

/-- Embeds `InMemoryQueue.Decide`.  The whole body up to the map deletion
runs under the queue mutex, so one call is one atomic step on the state:
an absent id fails with the not-found error and leaves the state
unchanged; otherwise the entry is removed from the map
(`delete(q.pending, id)`) and the decision is delivered to the waiting
caller, which the embedding returns together with the new state. -/
def Decide (q : QueueState) (id : String) (d : Decision) :
    Except String (QueueState × Decision) :=
  match q.pending.find? (fun p => p.1 == id) with
  | none => .error ("request not found: " ++ id)
  | some _ => .ok (⟨q.pending.filter (fun p => p.1 != id)⟩, d)

/-- A serialized run of `Decide` calls on one id (the queue mutex
serializes concurrent callers, so every concurrent execution is one such
run); counts how many calls succeed.  A failed call leaves the state
unchanged. -/
def decideSeq (q : QueueState) (id : String) : List Decision → Nat
  | [] => 0
  | d :: ds =>
    match Decide q id d with
    | .ok (q', _) => 1 + decideSeq q' id ds
    | .error _ => decideSeq q id ds

/-- Embeds `InMemoryQueue.handleTimeout`: under the mutex, a still-pending
entry for the id is removed from the map (and its channel closed); an
absent id leaves the state unchanged.  Both cases equal a keyed filter. -/
def handleTimeout (q : QueueState) (id : String) : QueueState :=
  ⟨q.pending.filter (fun p => p.1 != id)⟩

/-- The three select branches of `InMemoryQueue.waitForDecision`. -/
inductive WaitBranch where
  | resultReady
  | timeoutCtxDone
  | ctxDone
deriving DecidableEq, Repr

/-- Observable facts when the select statement wakes: whether a decision
has been sent on the result channel, whether the timeout timer has
expired, and whether the caller context has been cancelled. -/
structure WaitObs where
  delivered : Option Decision
  timerExpired : Bool
  ctxCancelled : Bool
deriving DecidableEq, Repr

/-- Readiness of each select branch.  `timeoutCtx` is created by
`context.WithTimeout(ctx, q.timeout)`, so its `Done` channel closes when
the timer expires or when the parent caller context is cancelled,
whichever happens first. -/
def branchReady (o : WaitObs) : WaitBranch → Bool
  | .resultReady => o.delivered.isSome
  | .timeoutCtxDone => o.timerExpired || o.ctxCancelled
  | .ctxDone => o.ctxCancelled

/-- Result of one `Enqueue` call as it returns from `waitForDecision`:
the decision handed to the caller, whether a (cancellation) error is
returned with it, and the queue state after the branch ran. -/
structure WaitResult where
  decision : Decision
  isCancelErr : Bool
  state : QueueState
deriving DecidableEq, Repr

/-- Embeds `InMemoryQueue.waitForDecision`: the Go select picks one ready
branch (`b` names the choice; an unready branch cannot be picked, giving
`none`).  The result branch returns the delivered decision with no error;
the timeout branch runs `handleTimeout` and returns
`{approved: false, reason: "approval timeout"}` with no error; the
context branch runs `handleTimeout` and returns
`{approved: false, reason: "request cancelled"}` together with the
context cancellation error. -/
def waitForDecision (q : QueueState) (id : String) (o : WaitObs) (b : WaitBranch) :
    Option WaitResult :=
  if branchReady o b then
    some (match b with
      | .resultReady =>
        { decision := (o.delivered.getD { Approved := false, Reason := "", DecidedBy := "" }),
          isCancelErr := false, state := q }
      | .timeoutCtxDone =>
        { decision := { Approved := false, Reason := "approval timeout", DecidedBy := "" },
          isCancelErr := false, state := handleTimeout q id }
      | .ctxDone =>
        { decision := { Approved := false, Reason := "request cancelled", DecidedBy := "" },
          isCancelErr := true, state := handleTimeout q id })
  else none

end Approval

/-- Helper: after the keyed deletion, no entry with the deleted id is
found. -/
theorem find_after_filter_ne (l : List (String × Approval.Request)) (id : String) :
    (l.filter (fun p => p.1 != id)).find? (fun p => p.1 == id) = none := by
  rw [List.find?_eq_none]
  intro x hx
  have hmem := List.mem_filter.mp hx
  have hne : (x.1 != id) = true := hmem.2
  simp only [bne_iff_ne, ne_eq] at hne
  simp [hne]

/-- Helper: a successful `Decide` leaves a state in which the id is no
longer pending. -/
theorem decide_ok_not_pending (q : Approval.QueueState) (id : String)
    (d : Approval.Decision) (q' : Approval.QueueState) (r : Approval.Decision)
    (h : Approval.Decide q id d = .ok (q', r)) :
    Approval.lookupPending q' id = none := by
  unfold Approval.Decide at h
  cases hf : q.pending.find? (fun p => p.1 == id) with
  | none => rw [hf] at h; cases h
  | some p =>
    rw [hf] at h
    cases h
    unfold Approval.lookupPending
    rw [find_after_filter_ne]
    rfl

/-- Helper: an id that is not pending makes `Decide` fail not-found. -/
theorem decide_not_pending_error (q : Approval.QueueState) (id : String)
    (d : Approval.Decision) (h : Approval.lookupPending q id = none) :
    Approval.Decide q id d = .error ("request not found: " ++ id) := by
  unfold Approval.lookupPending at h
  unfold Approval.Decide
  cases hf : q.pending.find? (fun p => p.1 == id) with
  | none => rfl
  | some p => rw [hf] at h; cases h

/-- Helper: with the id absent, every call of a `Decide` run fails and
the success count is zero. -/
theorem decideSeq_zero_of_not_pending (q : Approval.QueueState) (id : String)
    (ds : List Approval.Decision) (h : Approval.lookupPending q id = none) :
    Approval.decideSeq q id ds = 0 := by
  induction ds with
  | nil => rfl
  | cons d ds ih =>
    unfold Approval.decideSeq
    rw [decide_not_pending_error q id d h]
    exact ih

/-- Claim C6: at most one `Decide` succeeds per pending id.  In every
serialized run of `Decide` calls on one id (the queue mutex makes each
call atomic, so every concurrent schedule is such a run) at most one call
succeeds; the winning call removes the entry from the pending index in
the same atomic step, so the state it produces no longer contains the id
and every later `Decide` on that id - including one on an id that was
never pending or whose entry already reached a terminal state and was
removed - fails with the not-found error. -/
theorem decide_at_most_once (q : Approval.QueueState) (id : String)
    (ds : List Approval.Decision) :
    Approval.decideSeq q id ds ≤ 1 ∧
      (∀ d q' r, Approval.Decide q id d = .ok (q', r) →
        Approval.lookupPending q' id = none ∧
          ∀ d2, Approval.Decide q' id d2 = .error ("request not found: " ++ id)) ∧
      (∀ d, Approval.lookupPending q id = none →
        Approval.Decide q id d = .error ("request not found: " ++ id)) := by
  refine ⟨?_, ?_, ?_⟩
  · induction ds generalizing q with
    | nil => exact Nat.zero_le 1
    | cons d ds ih =>
      unfold Approval.decideSeq
      cases hd : Approval.Decide q id d with
      | ok p =>
        obtain ⟨q', r⟩ := p
        have hnone := decide_ok_not_pending q id d q' r hd
        simp [decideSeq_zero_of_not_pending q' id ds hnone]
      | error e => exact ih q
  · intro d q' r h
    have hnone := decide_ok_not_pending q id d q' r h
    exact ⟨hnone, fun d2 => decide_not_pending_error q' id d2 hnone⟩
  · intro d h
    exact decide_not_pending_error q id d h

/-- Witness for claim C6: from a queue holding the single pending id
`id1`, a successful `Decide` leaves a state where `id1` is absent and the
very next `Decide` on `id1` fails not-found; a serialized run of two
decisions on `id1` counts exactly one success. -/
theorem decide_at_most_once_witness :
    Approval.lookupPending (Approval.QueueState.mk []) "id1" = none ∧
      Approval.Decide (Approval.QueueState.mk []) "id1"
          { Approved := false, Reason := "no", DecidedBy := "op" } =
        .error ("request not found: " ++ "id1") ∧
      Approval.decideSeq
          (Approval.QueueState.mk
            [("id1", { ID := "id1", ToolName := "calc", Args := "null",
                       Reason := "sensitive", Status := .pending })]) "id1"
          [{ Approved := true, Reason := "ok", DecidedBy := "admin" },
           { Approved := false, Reason := "no", DecidedBy := "op" }] ≤ 1 := by
  have h0 := decide_at_most_once (Approval.QueueState.mk []) "id1" []
  have h1 := decide_at_most_once
    (Approval.QueueState.mk
      [("id1", { ID := "id1", ToolName := "calc", Args := "null",
                 Reason := "sensitive", Status := .pending })]) "id1"
    [{ Approved := true, Reason := "ok", DecidedBy := "admin" },
     { Approved := false, Reason := "no", DecidedBy := "op" }]
  exact ⟨rfl, h0.2.2 { Approved := false, Reason := "no", DecidedBy := "op" } rfl, h1.1⟩

/-- Claim C7 counterexample: with the caller context cancelled, no timer
expiry and no delivered decision, the `timeoutCtxDone` branch is ready
(the timeout context is derived from the caller context, so its `Done`
channel closes on cancellation too) and the select may pick it; the call
then returns `{approved: false, reason: "approval timeout"}` with no
cancellation error, not the `request cancelled` outcome the claim
promises for a cancelled caller. -/
theorem enqueue_cancel_race_ce :
    (Approval.WaitObs.mk none false true).ctxCancelled = true ∧
      Approval.branchReady (Approval.WaitObs.mk none false true) .timeoutCtxDone = true ∧
      Approval.waitForDecision (Approval.QueueState.mk []) "id1"
          (Approval.WaitObs.mk none false true) .timeoutCtxDone =
        some { decision := { Approved := false, Reason := "approval timeout", DecidedBy := "" },
               isCancelErr := false, state := Approval.QueueState.mk [] } ∧
      ({ Approved := false, Reason := "approval timeout", DecidedBy := "" } : Approval.Decision) ≠
        { Approved := false, Reason := "request cancelled", DecidedBy := "" } := by
  decide

/-- Claim C7 (amended): every `Enqueue` call that returns delivers exactly
one outcome, determined by the single select branch that ran - the
delivered human decision with no error on the result branch; the
`{approved: false, reason: "approval timeout"}` denial with no error and
the entry removed from the pending index on the timeout branch; the
`{approved: false, reason: "request cancelled"}` denial together with the
cancellation error, also removing the entry, on the caller-cancellation
branch.  A branch can only run when ready, but because the timeout
context is derived from the caller context, cancellation also readies the
timeout branch, so a cancelled caller may receive the timeout denial
instead of the cancellation outcome. -/
theorem wait_for_decision_outcomes (q : Approval.QueueState) (id : String)
    (o : Approval.WaitObs) (b : Approval.WaitBranch) (res : Approval.WaitResult)
    (h : Approval.waitForDecision q id o b = some res) :
    Approval.branchReady o b = true ∧
      (o.ctxCancelled = true → Approval.branchReady o .timeoutCtxDone = true) ∧
      (b = .resultReady → ∀ d, o.delivered = some d →
        res = { decision := d, isCancelErr := false, state := q }) ∧
      (b = .timeoutCtxDone →
        res = { decision := { Approved := false, Reason := "approval timeout", DecidedBy := "" },
                isCancelErr := false, state := Approval.handleTimeout q id } ∧
          Approval.lookupPending res.state id = none) ∧
      (b = .ctxDone →
        res = { decision := { Approved := false, Reason := "request cancelled", DecidedBy := "" },
                isCancelErr := true, state := Approval.handleTimeout q id } ∧
          Approval.lookupPending res.state id = none) := by
  unfold Approval.waitForDecision at h
  by_cases hr : Approval.branchReady o b = true
  · rw [if_pos hr] at h
    injection h with h
    refine ⟨hr, ?_, ?_, ?_, ?_⟩
    · intro hc
      simp [Approval.branchReady, hc]
    · intro hb d hd
      subst hb
      simp only at h
      rw [hd] at h
      simp [← h, Option.getD]
    · intro hb
      subst hb
      simp only at h
      refine ⟨h.symm, ?_⟩
      rw [← h]
      unfold Approval.lookupPending Approval.handleTimeout
      rw [find_after_filter_ne]
      rfl
    · intro hb
      subst hb
      simp only at h
      refine ⟨h.symm, ?_⟩
      rw [← h]
      unfold Approval.lookupPending Approval.handleTimeout
      rw [find_after_filter_ne]
      rfl
  · rw [if_neg hr] at h
    cases h

/-- Witness for the amended claim C7: a queue holding `id1` whose timer
has expired returns the timeout denial and the entry is removed. -/
theorem wait_for_decision_outcomes_witness :
    ({ decision := { Approved := false, Reason := "approval timeout", DecidedBy := "" },
       isCancelErr := false,
       state := Approval.handleTimeout
         (Approval.QueueState.mk
           [("id1", { ID := "id1", ToolName := "calc", Args := "null",
                      Reason := "sensitive", Status := .pending })]) "id1" } : Approval.WaitResult) =
        { decision := { Approved := false, Reason := "approval timeout", DecidedBy := "" },
          isCancelErr := false,
          state := Approval.handleTimeout
            (Approval.QueueState.mk
              [("id1", { ID := "id1", ToolName := "calc", Args := "null",
                         Reason := "sensitive", Status := .pending })]) "id1" } ∧
      Approval.lookupPending
        (Approval.handleTimeout
          (Approval.QueueState.mk
            [("id1", { ID := "id1", ToolName := "calc", Args := "null",
                       Reason := "sensitive", Status := .pending })]) "id1") "id1" = none := by
  have h := wait_for_decision_outcomes
    (Approval.QueueState.mk
      [("id1", { ID := "id1", ToolName := "calc", Args := "null",
                 Reason := "sensitive", Status := .pending })]) "id1"
    (Approval.WaitObs.mk none true false) .timeoutCtxDone
    { decision := { Approved := false, Reason := "approval timeout", DecidedBy := "" },
      isCancelErr := false,
      state := Approval.handleTimeout
        (Approval.QueueState.mk
          [("id1", { ID := "id1", ToolName := "calc", Args := "null",
                     Reason := "sensitive", Status := .pending })]) "id1" }
    (by decide)
  exact h.2.2.2.1 rfl

/-! ## Audit store (internal/audit, SQLiteStore) -/

namespace Audit

/-- Embeds the audit `Entry` struct; the `DATETIME` timestamp is embedded
as a totally ordered stamp. -/
structure Entry where
  ID : Nat
  Timestamp : Nat
  ToolInput : String
  Decision : String
  Reason : String
deriving DecidableEq, Repr

/-- Ordering guaranteed by `querySelectAll`, whose only sort key is
`ORDER BY timestamp DESC`: consecutive result entries have non-increasing
timestamps. -/
def tsDesc (a b : Entry) : Prop := b.Timestamp ≤ a.Timestamp

/-- Modelled from the spec: the ordering the claim states,
`ORDER BY timestamp DESC, id DESC` - strictly later timestamp first, and
among equal timestamps the larger id first. -/
def tsIdDesc (a b : Entry) : Prop :=
  b.Timestamp < a.Timestamp ∨ (b.Timestamp = a.Timestamp ∧ b.ID ≤ a.ID)

instance (a b : Entry) : Decidable (tsDesc a b) := by unfold tsDesc; infer_instance

instance (a b : Entry) : Decidable (tsIdDesc a b) := by unfold tsIdDesc; infer_instance

/-- Results the store may return for `GetAll`: the rows of the table in
some order consistent with the single sort key of `querySelectAll`.  The
relative order of rows with equal timestamps is not constrained by the
query. -/
def selectAllResult (table result : List Entry) : Prop :=
  table.Perm result ∧ result.Sorted tsDesc

/-- Modelled from the spec: result sets ordered as the claim demands,
by timestamp descending and id descending within equal timestamps. -/
def selectAllClaimed (table result : List Entry) : Prop :=
  table.Perm result ∧ result.Sorted tsIdDesc

/-- Embeds `audit.DecisionAllow`. -/
def DecisionAllow : String := "allow"

/-- Embeds `audit.DecisionDeny`. -/
def DecisionDeny : String := "deny"

/-- Embeds `isValidDecision`. -/
def isValidDecision (d : String) : Bool :=
  d == DecisionAllow || d == DecisionDeny

/-- Embeds `validateLogInput`.  JSON well-formedness of the input bytes
is the standard library predicate `json.Valid`, passed explicitly. -/
def validateLogInput (jsonValid : String → Bool) (toolInput decision reason : String) :
    Except String Unit :=
  if toolInput.length = 0 then .error "tool_input cannot be empty"
  else if !(jsonValid toolInput) then .error "tool_input must be valid JSON"
  else if !(isValidDecision decision) then .error ("invalid decision: " ++ decision)
  else if reason = "" then .error "reason cannot be empty"
  else .ok ()

/-- Embeds `SQLiteStore.Log`: validation first, then `insertEntry`
queues the row `(tool_input, decision, reason)` for the INSERT. -/
def Log (jsonValid : String → Bool) (toolInput decision reason : String) :
    Except String (String × String × String) :=
  match validateLogInput jsonValid toolInput decision reason with
  | .error e => .error e
  | .ok () => .ok (toolInput, decision, reason)

end Audit

/-- Claim C8 counterexample: two entries sharing one timestamp, stored
with ids 1 and 2.  Returning them in id-ascending order is a result the
query admits (it is a permutation of the table sorted by timestamp
descending, the only key of `querySelectAll`), yet it is not ordered by
id descending within the tied timestamp - the claimed
`ORDER BY timestamp DESC, id DESC` contract does not hold. -/
theorem getall_tie_order_ce :
    Audit.selectAllResult
        [{ ID := 1, Timestamp := 5, ToolInput := "null", Decision := "allow", Reason := "ok" },
         { ID := 2, Timestamp := 5, ToolInput := "null", Decision := "deny", Reason := "no" }]
        [{ ID := 1, Timestamp := 5, ToolInput := "null", Decision := "allow", Reason := "ok" },
         { ID := 2, Timestamp := 5, ToolInput := "null", Decision := "deny", Reason := "no" }] ∧
      ¬ List.Sorted Audit.tsIdDesc
        [{ ID := 1, Timestamp := 5, ToolInput := "null", Decision := "allow", Reason := "ok" },
         { ID := 2, Timestamp := 5, ToolInput := "null", Decision := "deny", Reason := "no" }] := by
  constructor
  · exact ⟨List.Perm.refl _, by decide⟩
  · decide

/-- Claim C8 (amended): `GetAll` returns all entries ordered by timestamp
descending only - `querySelectAll` carries no id tie-breaker, so the
order of entries with equal timestamps is left unspecified by the query.
The timestamp-descending, id-descending order the claim names is one
admissible result (every result set so ordered satisfies the query
contract), but it is not guaranteed. -/
theorem getall_timestamp_order (table result : List Audit.Entry)
    (h : Audit.selectAllClaimed table result) :
    Audit.selectAllResult table result ∧ List.Sorted Audit.tsDesc result := by
  have hs : List.Sorted Audit.tsDesc result := by
    refine h.2.imp ?_
    intro a b hab
    rcases hab with hlt | ⟨heq, _⟩
    · exact Nat.le_of_lt hlt
    · exact Nat.le_of_eq heq
  exact ⟨⟨h.1, hs⟩, hs⟩

/-- Witness for the amended claim C8: a two-row table returned in
timestamp-then-id descending order is a valid query result. -/
theorem getall_timestamp_order_witness :
    Audit.selectAllResult
        [{ ID := 1, Timestamp := 5, ToolInput := "null", Decision := "allow", Reason := "ok" },
         { ID := 2, Timestamp := 7, ToolInput := "null", Decision := "deny", Reason := "no" }]
        [{ ID := 2, Timestamp := 7, ToolInput := "null", Decision := "deny", Reason := "no" },
         { ID := 1, Timestamp := 5, ToolInput := "null", Decision := "allow", Reason := "ok" }] :=
  (getall_timestamp_order
    [{ ID := 1, Timestamp := 5, ToolInput := "null", Decision := "allow", Reason := "ok" },
     { ID := 2, Timestamp := 7, ToolInput := "null", Decision := "deny", Reason := "no" }]
    [{ ID := 2, Timestamp := 7, ToolInput := "null", Decision := "deny", Reason := "no" },
     { ID := 1, Timestamp := 5, ToolInput := "null", Decision := "allow", Reason := "ok" }]
    ⟨List.Perm.swap _ _ _, by decide⟩).1

/-- Claim C10: `Log` inserts the row exactly when the tool input is
non-empty and well-formed JSON, the outcome is `allow` or `deny`, and the
reason is non-empty; it fails with the invalid-input validation error
exactly when one of the four conditions is violated. -/
theorem log_invalid_input_iff (jsonValid : String → Bool)
    (toolInput decision reason : String) :
    (Audit.Log jsonValid toolInput decision reason = .ok (toolInput, decision, reason) ↔
        (toolInput ≠ "" ∧ jsonValid toolInput = true ∧
          (decision = Audit.DecisionAllow ∨ decision = Audit.DecisionDeny) ∧ reason ≠ "")) ∧
      ((Audit.Log jsonValid toolInput decision reason).isOk = false ↔
        (toolInput = "" ∨ jsonValid toolInput = false ∨
          (decision ≠ Audit.DecisionAllow ∧ decision ≠ Audit.DecisionDeny) ∨ reason = "")) := by
  have hlen : (toolInput.length = 0) ↔ toolInput = "" := by
    constructor
    · intro h
      cases toolInput with
      | mk data =>
        cases data with
        | nil => rfl
        | cons c cs => simp [String.length] at h
    · intro h; subst h; rfl
  unfold Audit.Log Audit.validateLogInput Audit.isValidDecision
  by_cases h1 : toolInput = ""
  · simp [h1, hlen, Except.isOk, Except.toBool]
  · have h1' : ¬ toolInput.length = 0 := fun hc => h1 (hlen.mp hc)
    by_cases h2 : jsonValid toolInput = true
    · by_cases h3 : (decision == Audit.DecisionAllow || decision == Audit.DecisionDeny) = true
      · have h3' : decision = Audit.DecisionAllow ∨ decision = Audit.DecisionDeny := by
          simpa [beq_iff_eq, Bool.or_eq_true] using h3
        have hcond : ¬ (¬ decision = Audit.DecisionAllow ∧ ¬ decision = Audit.DecisionDeny) := by
          tauto
        by_cases h4 : reason = ""
        · simp [h1, h1', h2, h3, h3', h4, Except.isOk, Except.toBool]
        · simp [h1, h1', h2, h3, h3', hcond, h4, Except.isOk, Except.toBool]
      · have h3' : ¬ decision = Audit.DecisionAllow ∧ ¬ decision = Audit.DecisionDeny := by
          constructor <;> intro hc <;> exact h3 (by simp [hc, Audit.DecisionAllow, Audit.DecisionDeny])
        simp [h1, h1', h2, h3, h3'.1, h3'.2, Except.isOk, Except.toBool]
    · have h2' : jsonValid toolInput = false := by
        cases hc : jsonValid toolInput with
        | false => rfl
        | true => exact absurd hc h2
      simp [h1, h1', h2', Except.isOk, Except.toBool]

/-! ## Upstream forwarder (internal/proxy/forwarder.go) -/

namespace Proxy

/-- Embeds the payload built by `Forwarder.buildPayload`: the JSON
envelope `{tool_name, args}`. -/
structure ForwardPayload where
  tool_name : String
  args : String
deriving DecidableEq, Repr

/-- Embeds `Forwarder.buildPayload`. -/
def buildPayload (toolName args : String) : ForwardPayload :=
  { tool_name := toolName, args := args }

/-- The HTTP request built by `Forwarder.buildRequest`. -/
structure HTTPRequest where
  method : String
  url : String
  contentType : String
  body : ForwardPayload
deriving DecidableEq, Repr

/-- Embeds `Forwarder.buildRequest`: a POST to the upstream URL with the
payload as body and a JSON content type. -/
def buildRequest (upstream : String) (payload : ForwardPayload) : HTTPRequest :=
  { method := "POST", url := upstream, contentType := "application/json", body := payload }

/-- Embeds `Forwarder.Forward`: the request it issues, and the outcome it
returns for a given network result (`client.Do` error, or a status with
the upstream body).  A network error is wrapped; a status different from
`http.StatusOK` (exactly 200) is an error; a 200 body is returned
verbatim. -/
def Forward (upstream toolName args : String) (net : Except String (Nat × String)) :
    HTTPRequest × Except String String :=
  (buildRequest upstream (buildPayload toolName args),
   match net with
   | .error e => .error ("http request: " ++ e)
   | .ok (status, respBody) =>
     if status ≠ 200 then .error ("upstream returned " ++ toString status)
     else .ok respBody)

/-- Response classes of `Handler.forwardRequest`. -/
inductive ForwardResp where
  | gatewayError (status : Nat) (msg : String)
  | success (result : String)
deriving DecidableEq, Repr

/-- Embeds `Handler.forwardRequest`: a forwarder error becomes the 502
gateway error response, and a forwarder result is returned under the
success wrapper. -/
def forwardRequest (outcome : Except String String) : ForwardResp :=
  match outcome with
  | .error _ => .gatewayError 502 "upstream request failed"
  | .ok result => .success result

end Proxy

/-- Claim C9 counterexample: a 201 Created upstream response is a
successful (2xx) response, yet the forwarder treats every status other
than exactly 200 as an error, so the caller receives the 502 gateway
error instead of the upstream body under the success wrapper. -/
theorem forward_non200_success_ce :
    (200 ≤ 201 ∧ 201 < 300) ∧
      Proxy.forwardRequest
          (Proxy.Forward "http://up" "calc" "null" (.ok (201, "created"))).2 =
        .gatewayError 502 "upstream request failed" ∧
      Proxy.ForwardResp.gatewayError 502 "upstream request failed" ≠
        Proxy.ForwardResp.success "created" := by
  refine ⟨⟨by decide, by decide⟩, rfl, by decide⟩

/-- Claim C9 (amended): the forwarder issues a POST to the upstream URL
with the `{tool_name, args}` envelope as JSON body; on any network error
and on every upstream status other than exactly 200 - including other
2xx statuses - the caller receives the 502 gateway error (a gateway-class
response, not a policy deny); only for a status-200 response is the
upstream body returned verbatim under the success wrapper. -/
theorem forward_behavior (upstream toolName args : String)
    (net : Except String (Nat × String)) :
    (Proxy.Forward upstream toolName args net).1 =
        { method := "POST", url := upstream, contentType := "application/json",
          body := { tool_name := toolName, args := args } } ∧
      (∀ e, net = .error e →
        Proxy.forwardRequest (Proxy.Forward upstream toolName args net).2 =
          .gatewayError 502 "upstream request failed") ∧
      (∀ status respBody, net = .ok (status, respBody) → status ≠ 200 →
        Proxy.forwardRequest (Proxy.Forward upstream toolName args net).2 =
          .gatewayError 502 "upstream request failed") ∧
      (∀ respBody, net = .ok (200, respBody) →
        Proxy.forwardRequest (Proxy.Forward upstream toolName args net).2 =
          .success respBody) := by
  refine ⟨rfl, ?_, ?_, ?_⟩
  · intro e he
    subst he
    rfl
  · intro status respBody hn hs
    subst hn
    simp [Proxy.Forward, Proxy.forwardRequest, hs]
  · intro respBody hn
    subst hn
    rfl

/-- Witness for the amended claim C9 at concrete network results. -/
theorem forward_behavior_witness :
    Proxy.forwardRequest (Proxy.Forward "http://up" "calc" "null" (.ok (503, "oops"))).2 =
        .gatewayError 502 "upstream request failed" ∧
      Proxy.forwardRequest (Proxy.Forward "http://up" "calc" "null" (.ok (200, "fine"))).2 =
        .success "fine" := by
  have h1 := forward_behavior "http://up" "calc" "null" (.ok (503, "oops"))
  have h2 := forward_behavior "http://up" "calc" "null" (.ok (200, "fine"))
  exact ⟨h1.2.2.1 503 "oops" rfl (by decide), h2.2.2.2 "fine" rfl⟩

end AgentGov
